import Mathlib

/-!
Shallow embedding of `src/extension.ts` (dhruvilp/vscode-llm): a local HTTP
bridge exposing `POST /chat`, backed by the host's language-model capability.

Conventions of the embedding:
* JavaScript values reachable from a parsed JSON body are modelled by `JsVal`.
  Numbers are modelled as integers (the only use of numbers here is JS
  truthiness, `n != 0`, which agrees with the float semantics on integral
  values); `undefined` is included because property access produces it.
* `JSON.parse` and `vscode.lm.selectChatModels` are host capabilities and are
  parameters of the request environment (`ReqEnv`), as is the behaviour of the
  selected model's `sendRequest` fragment stream (`StreamSpec`).
* The Node `http.ServerResponse` is modelled by `Res`, which records the
  ordered trace of head/write/end events, whether headers were sent, the
  committed status code, whether the stream has ended, how many times `end`
  completed, and whether an illegal stream operation (write/end after end,
  second `writeHead`) occurred.
* The single-threaded event loop is modelled by letting the request's
  `close` callback run at an `await` boundary of the fragment loop
  (`disconnectAt = some k`: the client disconnect is observed after `k`
  fragments were consumed). Cancellation is cooperative: once cancelled, the
  fragment stream terminates with `StreamSpec.cancelFin` instead of producing
  further fragments. When no early disconnect happens, the connection still
  closes after the response completes, so the `close` callback always runs
  exactly once per request (`closeAtEnd`).
-/

/-- JavaScript values as reachable from `JSON.parse` plus `undefined`. -/
inductive JsVal where
  | undefined : JsVal
  | null : JsVal
  | bool (b : Bool) : JsVal
  | num (n : Int) : JsVal
  | str (s : String) : JsVal
  | arr (xs : List JsVal) : JsVal
  | obj (fields : List (String × JsVal)) : JsVal

/-- JS truthiness (`if (v)`): `undefined`, `null`, `false`, `0`, `""` are
falsy; every object/array is truthy. -/
def truthy : JsVal → Bool
  | .undefined => false
  | .null => false
  | .bool b => b
  | .num n => n != 0
  | .str s => s != ""
  | .arr _ => true
  | .obj _ => true

mutual

/-- JS string coercion as used by template literals. -/
def jsToString : JsVal → String
  | .undefined => "undefined"
  | .null => "null"
  | .bool b => cond b "true" "false"
  | .num n => toString n
  | .str s => s
  | .arr xs => String.intercalate "," (jsArrParts xs)
  | .obj _ => "[object Object]"

/-- `Array.prototype.toString` renders `null`/`undefined` elements as `""`. -/
def jsArrParts : List JsVal → List String
  | [] => []
  | .null :: xs => "" :: jsArrParts xs
  | .undefined :: xs => "" :: jsArrParts xs
  | x :: xs => jsToString x :: jsArrParts xs

end

/-- JS property access `v[k]`: throws a `TypeError` on `null`/`undefined`
(the `.error` carries `error.message`), looks the key up on objects, and
yields `undefined` on every other primitive. -/
def jsGet (v : JsVal) (k : String) : Except String JsVal :=
  match v with
  | .null =>
    .error ("Cannot read properties of null (reading \x27" ++ k ++ "\x27)")
  | .undefined =>
    .error ("Cannot read properties of undefined (reading \x27" ++ k ++ "\x27)")
  | .obj fields => .ok ((fields.lookup k).getD .undefined)
  | _ => .ok .undefined

/-- `JSON.stringify` escaping of one character of a string value (quote,
backslash and the common control characters; the strings produced by this
server contain nothing else needing escapes). -/
def jsonEscChar (c : Char) : String :=
  if c = '\\' then "\\\\"
  else if c = '"' then "\\\""
  else if c = '\n' then "\\n"
  else if c = '\r' then "\\r"
  else if c = '\t' then "\\t"
  else String.singleton c

/-- `JSON.stringify` escaping of a string value. -/
def jsonEsc (s : String) : String := String.join (s.data.map jsonEscChar)

/-- `JSON.stringify({ error: msg })`. -/
def errorBody (msg : String) : String :=
  "\x7b\"error\":\"" ++ jsonEsc msg ++ "\"\x7d"

/-- `JSON.stringify({ error: 'Failed to process chat request.', details })`. -/
def failBody (details : String) : String :=
  "\x7b\"error\":\"Failed to process chat request.\",\"details\":\"" ++
    jsonEsc details ++ "\"\x7d"

/-- The fixed 400 body for a missing prompt (extension.ts line 47). -/
def promptRequiredBody : String :=
  errorBody "Prompt is required in the request body."

/-- The fixed 404 body (extension.ts line 123). -/
def notFoundBody : String := errorBody "Not Found. Use POST /chat"

/-- The 503 message (extension.ts line 60): names the (defaulted) vendor and,
when a truthy family was supplied, the family. -/
def noModelMsg (vendor : JsVal) (family : Option JsVal) : String :=
  "No suitable language model found for vendor \x27" ++ jsToString vendor ++
    "\x27" ++
    (match family with
     | some f => " and family \x27" ++ jsToString f ++ "\x27"
     | none => "") ++
    ". Ensure the provider (e.g., GitHub Copilot) is active and available."

/-- The inline mid-stream error marker (extension.ts line 102). -/
def llmErrorMarker (msg : String) : String :=
  "\nError from LLM service: " ++ msg ++ "\n"

/-- One observable event on the HTTP response. -/
inductive Ev where
  | head (status : Nat) (headers : List (String × String)) : Ev
  | write (s : String) : Ev
  | fin : Ev
deriving DecidableEq, Repr

/-- State of a Node `http.ServerResponse`. `streamError` records that an
illegal operation happened (a second `writeHead`, or a write/end after the
stream ended) — Node would raise/emit an error there. -/
structure Res where
  trace : List Ev
  headersSent : Bool
  statusCode : Option Nat
  ended : Bool
  endCount : Nat
  streamError : Bool
deriving DecidableEq, Repr

def Res.init : Res :=
  { trace := []
    headersSent := false
    statusCode := none
    ended := false
    endCount := 0
    streamError := false }

/-- `res.writeHead(status, headers)`: throws if headers were already sent. -/
def Res.writeHead (r : Res) (status : Nat) (hs : List (String × String)) : Res :=
  if r.headersSent then { r with streamError := true }
  else
    { r with
      trace := r.trace ++ [Ev.head status hs]
      headersSent := true
      statusCode := some status }

/-- `res.write(s)`: writing after end is an error. -/
def Res.write (r : Res) (s : String) : Res :=
  if r.ended then { r with streamError := true }
  else { r with trace := r.trace ++ [Ev.write s] }

/-- `res.end()` / `res.end(body)`: finalizes the response; ending an already
ended response is an error. -/
def Res.finish (r : Res) (body : Option String) : Res :=
  if r.ended then { r with streamError := true }
  else
    { r with
      trace := r.trace ++
        (match body with | some s => [Ev.write s] | none => []) ++ [Ev.fin]
      ended := true
      endCount := r.endCount + 1 }

/-- The bytes a client observes: the writes of the trace, in order. -/
def evWriteStr : Ev → Option String
  | .write s => some s
  | _ => none

def bodyOf (r : Res) : String := String.join (r.trace.filterMap evWriteStr)

/-- How a fragment stream terminates: normal completion or a raised error
(the string is `llmError.message || String(llmError)`). -/
inductive StreamEnd where
  | done : StreamEnd
  | err (msg : String) : StreamEnd
deriving DecidableEq, Repr

/-- Behaviour of `model.sendRequest(...).text` for this request: the
fragments it would produce, how it terminates after them (`fin`; a rejection
of `sendRequest` itself is the `frags = []`, `fin = .err _` case), and how it
terminates once cancellation is observed (`cancelFin`). -/
structure StreamSpec where
  frags : List String
  fin : StreamEnd
  cancelFin : StreamEnd
deriving DecidableEq, Repr

/-- Per-request streaming state: the response plus the log of
`cancellationTokenSource.cancel()` invocations — each entry records
`res.writableEnded` at the moment of the call. -/
structure StreamSt where
  res : Res
  cancelLog : List Bool
deriving DecidableEq, Repr

/-- The `req.on('close')` callback (extension.ts lines 81-86): cancel only
if the response has not ended. -/
def fireClose (st : StreamSt) : StreamSt :=
  if st.res.ended then st
  else { st with cancelLog := st.cancelLog ++ [st.res.ended] }

/-- The inner `catch (llmError)` (lines 99-103): on an error termination,
write the inline marker if the response is still open. -/
def handleFin (e : StreamEnd) (st : StreamSt) : StreamSt :=
  match e with
  | .done => st
  | .err msg =>
    if st.res.ended then st
    else { st with res := st.res.write (llmErrorMarker msg) }

/-- The `finally` block (lines 104-108): end the response if still open. -/
def finallyEnd (st : StreamSt) : StreamSt :=
  if st.res.ended then st
  else { st with res := st.res.finish none }

/-- The `for await (const fragment of chatResponse.text)` loop
(lines 91-98), with the disconnect callback running at the `await`
boundary after `idx` fragments were consumed. -/
def streamLoop (spec : StreamSpec) (dAt : Option Nat) :
    List String → Nat → StreamSt → StreamSt
  | [], idx, st =>
    if dAt = some idx then finallyEnd (handleFin spec.cancelFin (fireClose st))
    else finallyEnd (handleFin spec.fin st)
  | f :: rest, idx, st =>
    if dAt = some idx then finallyEnd (handleFin spec.cancelFin (fireClose st))
    else if st.res.ended then finallyEnd st
    else streamLoop spec dAt rest (idx + 1) { st with res := st.res.write f }

/-- The connection eventually closes even without an early disconnect, so the
`close` callback fires after the response completes if it has not fired
during the loop (its guard then sees `writableEnded` and does nothing). -/
def closeAtEnd (dAt : Option Nat) (fragCount : Nat) (st : StreamSt) : StreamSt :=
  match dAt with
  | none => fireClose st
  | some k => if k ≤ fragCount then st else fireClose st

/-- The streaming headers of extension.ts lines 70-74. -/
def res200Headers : List (String × String) :=
  [("Content-Type", "text/plain; charset=utf-8"),
   ("Transfer-Encoding", "chunked"),
   ("X-Content-Type-Options", "nosniff")]

def jsonCT : List (String × String) := [("Content-Type", "application/json")]

/-- The whole streaming phase of a request: 200 headers, the fragment loop
with its catch/finally, and the eventual `close` callback. -/
def streamPhase (spec : StreamSpec) (dAt : Option Nat) : StreamSt :=
  closeAtEnd dAt spec.frags.length
    (streamLoop spec dAt spec.frags 0
      { res := Res.init.writeHead 200 res200Headers, cancelLog := [] })

/-- `vscode.LanguageModelChatSelector` as built on lines 51-54. -/
structure Selector where
  vendor : JsVal
  family : Option JsVal

/-- Lines 41, 43, 51-54: vendor defaults to "copilot" when falsy; the family
is set on the selector only when truthy. -/
def mkSelector (vendorV familyV : JsVal) : Selector :=
  { vendor := if truthy vendorV then vendorV else .str "copilot"
    family := if truthy familyV then some familyV else none }

/-- Line 58: `!models || models.length === 0`. -/
def modelsEmpty : Option (List Nat) → Bool
  | none => true
  | some l => l.isEmpty

/-- Environment of one request: the inbound request data and the host
capabilities it interacts with. Models are opaque identifiers. -/
structure ReqEnv where
  method : String
  url : String
  /-- The request body chunks in arrival order, or a connection-level error
  before `end` (the request's `error` event, propagated by `parseJsonBody`). -/
  bodyChunks : Except String (List String)
  /-- `JSON.parse`; the `.error` carries `String(e)` of the thrown error. -/
  jsonParse : String → Except String JsVal
  /-- `vscode.lm.selectChatModels`: may reject, or resolve to
  nothing/undefined or a list of models. -/
  selectChatModels : Selector → Except String (Option (List Nat))
  /-- Behaviour of the selected model's `sendRequest` stream. -/
  stream : StreamSpec
  /-- Client disconnect observed after this many fragments were consumed
  (`none`: the client stays connected until the response completes). -/
  disconnectAt : Option Nat

/-- `parseJsonBody` (extension.ts lines 9-24): concatenate the chunks in
arrival order, parse only after end-of-stream, wrap a parse failure in
`Invalid JSON body: `, propagate a connection error as-is. -/
def parseJsonBody (env : ReqEnv) : Except String JsVal :=
  match env.bodyChunks with
  | .error e => .error e
  | .ok chunks =>
    match env.jsonParse (String.join chunks) with
    | .ok v => .ok v
    | .error e => .error ("Invalid JSON body: " ++ e)

/-- What one request-handler invocation did: the response, the number of
`selectChatModels` and `sendRequest` calls, the selector and options used,
and the cancel log of the request's cancellation source. -/
structure Outcome where
  res : Res
  selectCalls : Nat
  selectorUsed : Option Selector
  sendCalls : Nat
  optionsUsed : Option JsVal
  cancelLog : List Bool

def pureOutcome (r : Res) : Outcome :=
  { res := r
    selectCalls := 0
    selectorUsed := none
    sendCalls := 0
    optionsUsed := none
    cancelLog := [] }

/-- The outer `catch (error)` (extension.ts lines 110-120): write the 500
head only if headers were not sent; end with the failure body only if the
response has not ended. -/
def outerCatch (details : String) (r : Res) : Res :=
  let r1 := if r.headersSent then r else r.writeHead 500 jsonCT
  if r1.ended then r1 else r1.finish (some (failBody details))

/-- The `POST /chat` branch (extension.ts lines 37-120). Property reads
happen in source order: prompt (line 39), vendor (41), family (43); a thrown
`TypeError` (null/undefined body) reaches the outer catch. `options` is read
on line 77, after the 200 headers are written. -/
def handleChat (env : ReqEnv) : Outcome :=
  match parseJsonBody env with
  | .error e => pureOutcome (outerCatch e Res.init)
  | .ok requestBody =>
    match jsGet requestBody "prompt" with
    | .error e => pureOutcome (outerCatch e Res.init)
    | .ok userPrompt =>
      match jsGet requestBody "vendor" with
      | .error e => pureOutcome (outerCatch e Res.init)
      | .ok vendorV =>
        match jsGet requestBody "family" with
        | .error e => pureOutcome (outerCatch e Res.init)
        | .ok familyV =>
          if truthy userPrompt = false then
            pureOutcome
              ((Res.init.writeHead 400 jsonCT).finish (some promptRequiredBody))
          else
            match env.selectChatModels (mkSelector vendorV familyV) with
            | .error e =>
              { pureOutcome (outerCatch e Res.init) with
                selectCalls := 1
                selectorUsed := some (mkSelector vendorV familyV) }
            | .ok models =>
              if modelsEmpty models then
                { pureOutcome
                    ((Res.init.writeHead 503 jsonCT).finish
                      (some (errorBody
                        (noModelMsg (mkSelector vendorV familyV).vendor
                          (mkSelector vendorV familyV).family)))) with
                  selectCalls := 1
                  selectorUsed := some (mkSelector vendorV familyV) }
              else
                match jsGet requestBody "options" with
                | .error e =>
                  { pureOutcome
                      (outerCatch e (Res.init.writeHead 200 res200Headers)) with
                    selectCalls := 1
                    selectorUsed := some (mkSelector vendorV familyV) }
                | .ok optionsV =>
                  { res := (streamPhase env.stream env.disconnectAt).res
                    selectCalls := 1
                    selectorUsed := some (mkSelector vendorV familyV)
                    sendCalls := 1
                    optionsUsed :=
                      some (if truthy optionsV then optionsV else .obj [])
                    cancelLog :=
                      (streamPhase env.stream env.disconnectAt).cancelLog }

/-- The full request handler (extension.ts lines 35-125): route
`POST /chat`, everything else gets the fixed 404. -/
def handleRequest (env : ReqEnv) : Outcome :=
  if env.method = "POST" ∧ env.url = "/chat" then handleChat env
  else pureOutcome ((Res.init.writeHead 404 jsonCT).finish (some notFoundBody))

/-!
Server lifecycle (extension.ts lines 5-6, 26-33, 127-148, 151-170): the
module-level `llmBridgeServer` variable, `startLlmBridgeServer`, the
listener's `error` observer, and the deactivation disposable. Server
instances are identified by their creation index; `servers` keeps every
instance ever created together with whether it is still listening, so that
"at most one concurrently-listening instance" is expressible.
-/

/-- One `http.Server` instance: its creation index and listening flag. -/
structure SrvHandle where
  id : Nat
  listening : Bool
deriving DecidableEq, Repr

/-- Process-wide state around `llmBridgeServer`. `current` is the value of
the module-level variable (by id); `subs` counts disposables pushed onto
`context.subscriptions`; `notices` and `errorsReported` record the
`showInformationMessage` / `showErrorMessage` calls. -/
structure BridgeState where
  servers : List SrvHandle
  current : Option Nat
  subs : Nat
  notices : List String
  errorsReported : List String
deriving DecidableEq, Repr

def BridgeState.init : BridgeState :=
  { servers := []
    current := none
    subs := 0
    notices := []
    errorsReported := [] }

/-- `llmBridgeServer && llmBridgeServer.listening` (line 27). -/
def BridgeState.currentListening (s : BridgeState) : Bool :=
  match s.current with
  | none => false
  | some i => s.servers.any (fun h => h.id == i && h.listening)

def alreadyRunningMsg : String :=
  "LLM Bridge server is already running on http://localhost:3000."

def startedMsg : String :=
  "LLM Bridge server started on port 3000. You can send POST requests to http://localhost:3000/chat"

/-- `startLlmBridgeServer` (lines 26-148): if the current server is
listening, only report "already running"; otherwise create a fresh server,
listen, and push the closing disposable. -/
def startServer (s : BridgeState) : BridgeState :=
  if s.currentListening then
    { s with notices := s.notices ++ [alreadyRunningMsg] }
  else
    { s with
      servers := s.servers ++ [{ id := s.servers.length, listening := true }]
      current := some s.servers.length
      subs := s.subs + 1
      notices := s.notices ++ [startedMsg] }

/-- Mark server `i` as no longer listening (`server.close()`). -/
def closeSrv (servers : List SrvHandle) (i : Nat) : List SrvHandle :=
  servers.map fun h => if h.id = i then { h with listening := false } else h

/-- The listener's `error` observer (lines 132-137): report, close the
current server if any, and clear the module-level reference. -/
def serverError (msg : String) (s : BridgeState) : BridgeState :=
  { s with
    errorsReported := s.errorsReported ++ ["LLM Bridge server error: " ++ msg]
    servers :=
      match s.current with
      | some i => closeSrv s.servers i
      | none => s.servers
    current := none }

/-- The deactivation disposable (lines 140-147): if a server reference
exists, close it and clear the reference in the close callback; otherwise do
nothing. -/
def disposeServer (s : BridgeState) : BridgeState :=
  match s.current with
  | none => s
  | some i => { s with servers := closeSrv s.servers i, current := none }

/-- The external events that mutate the singleton server state. -/
inductive Op where
  | start : Op
  | dispose : Op
  | listenerError (msg : String) : Op
deriving DecidableEq, Repr

def applyOp (o : Op) (s : BridgeState) : BridgeState :=
  match o with
  | .start => startServer s
  | .dispose => disposeServer s
  | .listenerError m => serverError m s

/-- The state reached from process start by a sequence of events. -/
def runOps (ops : List Op) : BridgeState :=
  ops.foldl (fun s o => applyOp o s) BridgeState.init

def listeningCount (s : BridgeState) : Nat :=
  (s.servers.filter (fun h => h.listening)).length

/-!  Basic lemmas about the response model and the streaming loop. -/

/-- Writing all fragments of a list in order (`res.write` per fragment). -/
def writeAll (r : Res) (fs : List String) : Res := fs.foldl Res.write r

theorem Res.write_ended (r : Res) (s : String) : (r.write s).ended = r.ended := by
  unfold Res.write; split <;> rfl

theorem Res.write_eq (r : Res) (s : String) (h : r.ended = false) :
    r.write s = { r with trace := r.trace ++ [Ev.write s] } := by
  unfold Res.write; rw [h]; simp

theorem writeAll_eq (fs : List String) (r : Res) (h : r.ended = false) :
    writeAll r fs = { r with trace := r.trace ++ fs.map Ev.write } := by
  induction fs generalizing r with
  | nil => simp [writeAll]
  | cons f rest ih =>
    have hw := Res.write_eq r f h
    have h2 : (r.write f).ended = false := by rw [Res.write_ended]; exact h
    calc writeAll r (f :: rest) = writeAll (r.write f) rest := rfl
      _ = { r.write f with trace := (r.write f).trace ++ rest.map Ev.write } :=
          ih (r.write f) h2
      _ = { r with trace := r.trace ++ (f :: rest).map Ev.write } := by
          rw [hw]; simp

/-- The write/error-marker/end events appended after the fragments, by
stream termination kind. -/
def endEvents : StreamEnd → List Ev
  | .done => [Ev.fin]
  | .err m => [Ev.write (llmErrorMarker m), Ev.fin]

theorem streamLoop_none (spec : StreamSpec) (rem : List String) (idx : Nat)
    (st : StreamSt) (h : st.res.ended = false) :
    streamLoop spec none rem idx st =
      finallyEnd (handleFin spec.fin { st with res := writeAll st.res rem }) := by
  induction rem generalizing idx st with
  | nil => simp [streamLoop, writeAll]
  | cons f rest ih =>
    have h2 : (st.res.write f).ended = false := by rw [Res.write_ended]; exact h
    calc streamLoop spec none (f :: rest) idx st
        = streamLoop spec none rest (idx + 1) { st with res := st.res.write f } := by
          simp [streamLoop, h]
      _ = finallyEnd (handleFin spec.fin
            { st with res := writeAll (st.res.write f) rest }) := ih (idx + 1) _ h2
      _ = finallyEnd (handleFin spec.fin { st with res := writeAll st.res (f :: rest) }) := rfl

theorem streamLoop_hit (spec : StreamSpec) (k : Nat) (rem : List String)
    (idx : Nat) (st : StreamSt) (h : st.res.ended = false) (h1 : idx ≤ k)
    (h2 : k - idx ≤ rem.length) :
    streamLoop spec (some k) rem idx st =
      finallyEnd (handleFin spec.cancelFin
        (fireClose { st with res := writeAll st.res (rem.take (k - idx)) })) := by
  induction rem generalizing idx st with
  | nil =>
    have hk : k = idx := by simp at h2; omega
    subst hk
    simp [streamLoop, writeAll]
  | cons f rest ih =>
    by_cases hk : k = idx
    · subst hk
      simp [streamLoop, writeAll]
    · have hlt : idx < k := by omega
      have h2' : (st.res.write f).ended = false := by rw [Res.write_ended]; exact h
      have htake : (f :: rest).take (k - idx) = f :: rest.take (k - (idx + 1)) := by
        have : k - idx = (k - (idx + 1)) + 1 := by omega
        rw [this]; rfl
      calc streamLoop spec (some k) (f :: rest) idx st
          = streamLoop spec (some k) rest (idx + 1) { st with res := st.res.write f } := by
            simp [streamLoop, h, hk]
        _ = finallyEnd (handleFin spec.cancelFin
              (fireClose { st with
                res := writeAll (st.res.write f) (rest.take (k - (idx + 1))) })) := by
            exact ih (idx + 1) _ h2' (by omega) (by simp at h2 ⊢; omega)
        _ = finallyEnd (handleFin spec.cancelFin
              (fireClose { st with res := writeAll st.res ((f :: rest).take (k - idx)) })) := by
            rw [htake]; rfl

theorem streamLoop_miss (spec : StreamSpec) (k : Nat) (rem : List String)
    (idx : Nat) (st : StreamSt) (h : st.res.ended = false)
    (h2 : idx + rem.length < k) :
    streamLoop spec (some k) rem idx st =
      finallyEnd (handleFin spec.fin { st with res := writeAll st.res rem }) := by
  induction rem generalizing idx st with
  | nil =>
    have hk : ¬ (k = idx) := by simp at h2; omega
    simp [streamLoop, writeAll, hk]
  | cons f rest ih =>
    have hk : ¬ (k = idx) := by simp at h2; omega
    have h2' : (st.res.write f).ended = false := by rw [Res.write_ended]; exact h
    calc streamLoop spec (some k) (f :: rest) idx st
        = streamLoop spec (some k) rest (idx + 1) { st with res := st.res.write f } := by
          simp [streamLoop, h, hk]
      _ = finallyEnd (handleFin spec.fin
            { st with res := writeAll (st.res.write f) rest }) := by
          exact ih (idx + 1) _ h2' (by simp at h2 ⊢; omega)
      _ = finallyEnd (handleFin spec.fin { st with res := writeAll st.res (f :: rest) }) := rfl

theorem fireClose_ended (st : StreamSt) (h : st.res.ended = true) :
    fireClose st = st := by
  simp [fireClose, h]

theorem fireClose_live (st : StreamSt) (h : st.res.ended = false) :
    fireClose st = { st with cancelLog := st.cancelLog ++ [false] } := by
  simp [fireClose, h]

theorem finishAfter (e : StreamEnd) (st : StreamSt) (h : st.res.ended = false) :
    finallyEnd (handleFin e st) =
      ⟨{ st.res with
         trace := st.res.trace ++ endEvents e
         ended := true
         endCount := st.res.endCount + 1 }, st.cancelLog⟩ := by
  cases e with
  | done => simp [handleFin, finallyEnd, endEvents, h, Res.finish]
  | err m =>
    simp [handleFin, finallyEnd, endEvents, h, Res.finish, Res.write]

theorem streamPhase_none (spec : StreamSpec) :
    streamPhase spec none =
      ⟨{ trace :=
           Ev.head 200 res200Headers ::
             (spec.frags.map Ev.write ++ endEvents spec.fin)
         headersSent := true
         statusCode := some 200
         ended := true
         endCount := 1
         streamError := false }, []⟩ := by
  unfold streamPhase closeAtEnd
  rw [streamLoop_none spec spec.frags 0 _ rfl]
  rw [writeAll_eq spec.frags _ rfl]
  rw [finishAfter spec.fin _ rfl]
  rw [fireClose_ended _ rfl]
  simp [Res.init, Res.writeHead]

theorem streamPhase_disc (spec : StreamSpec) (k : Nat)
    (hk : k ≤ spec.frags.length) :
    streamPhase spec (some k) =
      ⟨{ trace :=
           Ev.head 200 res200Headers ::
             ((spec.frags.take k).map Ev.write ++ endEvents spec.cancelFin)
         headersSent := true
         statusCode := some 200
         ended := true
         endCount := 1
         streamError := false }, [false]⟩ := by
  have hcl : ∀ st, closeAtEnd (some k) spec.frags.length st = st := by
    intro st; simp only [closeAtEnd]; rw [if_pos hk]
  unfold streamPhase
  rw [hcl]
  rw [streamLoop_hit spec k spec.frags 0 _ rfl (Nat.zero_le k)
    (by simpa using hk)]
  rw [writeAll_eq _ _ rfl]
  rw [fireClose_live _ rfl]
  rw [finishAfter spec.cancelFin _ rfl]
  simp [Res.init, Res.writeHead]

theorem streamPhase_late (spec : StreamSpec) (k : Nat)
    (hk : spec.frags.length < k) :
    streamPhase spec (some k) =
      ⟨{ trace :=
           Ev.head 200 res200Headers ::
             (spec.frags.map Ev.write ++ endEvents spec.fin)
         headersSent := true
         statusCode := some 200
         ended := true
         endCount := 1
         streamError := false }, []⟩ := by
  have hcl : ∀ st, closeAtEnd (some k) spec.frags.length st = fireClose st := by
    intro st; simp only [closeAtEnd]; rw [if_neg (by omega)]
  unfold streamPhase
  rw [hcl]
  rw [streamLoop_miss spec k spec.frags 0 _ rfl (by simpa using hk)]
  rw [writeAll_eq spec.frags _ rfl]
  rw [finishAfter spec.fin _ rfl]
  rw [fireClose_ended _ rfl]
  simp [Res.init, Res.writeHead]

/-- If one property access on `b` succeeds then `b` is neither `null` nor
`undefined`, so every other property access succeeds as well. -/
theorem jsGet_ok_of_ok (b : JsVal) (k k2 : String) (p : JsVal)
    (h : jsGet b k = .ok p) : ∃ v, jsGet b k2 = Except.ok v := by
  cases b <;> simp [jsGet] at h ⊢

theorem join_singleton (s : String) : String.join [s] = s := by
  cases s with | mk data => rfl

theorem filterMap_writes (l : List String) :
    List.filterMap (evWriteStr ∘ Ev.write) l = l := by
  induction l with
  | nil => rfl
  | cons x xs ih => simp [evWriteStr, Function.comp, ih]

/-- Reduction of the handler on the streaming branch: valid route, parsed
body, truthy prompt, and a non-empty model set. -/
theorem handleRequest_stream (env : ReqEnv) (b p vv fv ov : JsVal)
    (m : Nat) (ms : List Nat)
    (hm : env.method = "POST") (hu : env.url = "/chat")
    (hb : parseJsonBody env = .ok b)
    (hp : jsGet b "prompt" = .ok p) (hpt : truthy p = true)
    (hv : jsGet b "vendor" = .ok vv) (hf : jsGet b "family" = .ok fv)
    (ho : jsGet b "options" = .ok ov)
    (hsel : env.selectChatModels (mkSelector vv fv) = .ok (some (m :: ms))) :
    handleRequest env =
      { res := (streamPhase env.stream env.disconnectAt).res
        selectCalls := 1
        selectorUsed := some (mkSelector vv fv)
        sendCalls := 1
        optionsUsed := some (if truthy ov then ov else .obj [])
        cancelLog := (streamPhase env.stream env.disconnectAt).cancelLog } := by
  have hroute : env.method = "POST" ∧ env.url = "/chat" := ⟨hm, hu⟩
  simp only [handleRequest, if_pos hroute, handleChat, hb, hp, hv, hf, ho,
    hsel, hpt]
  simp [modelsEmpty]

/-- Claim C5: for every valid `POST /chat` request with a selected model
whose stream yields a finite fragment sequence and completes normally while
the client stays connected, the response trace is exactly the 200 head with
`Content-Type: text/plain; charset=utf-8`, `Transfer-Encoding: chunked` and
`X-Content-Type-Options: nosniff`, followed by one write per fragment in
the model's order and a single finalization — so the client-observed body is
the in-order concatenation of the fragments with no gaps, reordering or
trailing structure (empty fragment list included: empty body, closed
successfully). -/
theorem chat_success_streams_fragments_in_order (env : ReqEnv)
    (b p vv fv ov : JsVal) (m : Nat) (ms : List Nat)
    (hm : env.method = "POST") (hu : env.url = "/chat")
    (hb : parseJsonBody env = .ok b)
    (hp : jsGet b "prompt" = .ok p) (hpt : truthy p = true)
    (hv : jsGet b "vendor" = .ok vv) (hf : jsGet b "family" = .ok fv)
    (ho : jsGet b "options" = .ok ov)
    (hsel : env.selectChatModels (mkSelector vv fv) = .ok (some (m :: ms)))
    (hfin : env.stream.fin = .done) (hdc : env.disconnectAt = none) :
    (handleRequest env).res.trace =
        Ev.head 200 res200Headers ::
          (env.stream.frags.map Ev.write ++ [Ev.fin])
      ∧ bodyOf (handleRequest env).res = String.join env.stream.frags
      ∧ (handleRequest env).res.statusCode = some 200
      ∧ (handleRequest env).res.ended = true
      ∧ (handleRequest env).res.endCount = 1
      ∧ (handleRequest env).res.streamError = false := by
  rw [handleRequest_stream env b p vv fv ov m ms hm hu hb hp hpt hv hf ho hsel]
  rw [hdc, streamPhase_none, hfin]
  refine ⟨by simp [endEvents], ?_, rfl, rfl, rfl, rfl⟩
  simp [bodyOf, endEvents, evWriteStr, filterMap_writes]

/-- Claim C4: if the model invocation raises mid-stream after its fragments
were written and the client stays connected, the client-observed body is
exactly the fragments so far followed by the inline
`"\nError from LLM service: <message>\n"` marker, the committed status stays
200, the response is closed exactly once, and no illegal stream operation
(which is how a re-raise to the transport layer would surface) occurs —
the outer handler returns normally. -/
theorem chat_midstream_error_inline_marker (env : ReqEnv)
    (b p vv fv ov : JsVal) (m : Nat) (ms : List Nat) (msg : String)
    (hm : env.method = "POST") (hu : env.url = "/chat")
    (hb : parseJsonBody env = .ok b)
    (hp : jsGet b "prompt" = .ok p) (hpt : truthy p = true)
    (hv : jsGet b "vendor" = .ok vv) (hf : jsGet b "family" = .ok fv)
    (ho : jsGet b "options" = .ok ov)
    (hsel : env.selectChatModels (mkSelector vv fv) = .ok (some (m :: ms)))
    (hfin : env.stream.fin = .err msg) (hdc : env.disconnectAt = none) :
    bodyOf (handleRequest env).res =
        String.join (env.stream.frags ++ [llmErrorMarker msg])
      ∧ (handleRequest env).res.trace =
        Ev.head 200 res200Headers ::
          (env.stream.frags.map Ev.write ++
            [Ev.write (llmErrorMarker msg), Ev.fin])
      ∧ (handleRequest env).res.statusCode = some 200
      ∧ (handleRequest env).res.ended = true
      ∧ (handleRequest env).res.endCount = 1
      ∧ (handleRequest env).res.streamError = false := by
  rw [handleRequest_stream env b p vv fv ov m ms hm hu hb hp hpt hv hf ho hsel]
  rw [hdc, streamPhase_none, hfin]
  refine ⟨?_, by simp [endEvents], rfl, rfl, rfl, rfl⟩
  simp [bodyOf, endEvents, evWriteStr, filterMap_writes]

/-- Claim C2: if the client disconnects after `k` fragments, before the
model finished producing its fragments, then the cancellation source is
cancelled exactly once and never after the response was finalized (the
cancel log is exactly one entry, recorded with `writableEnded = false`), no
fragment beyond the first `k` is written after the disconnect is observed,
and the response-closing logic runs exactly once without any illegal stream
operation. -/
theorem chat_disconnect_cancels_once (env : ReqEnv)
    (b p vv fv ov : JsVal) (m : Nat) (ms : List Nat) (k : Nat)
    (hm : env.method = "POST") (hu : env.url = "/chat")
    (hb : parseJsonBody env = .ok b)
    (hp : jsGet b "prompt" = .ok p) (hpt : truthy p = true)
    (hv : jsGet b "vendor" = .ok vv) (hf : jsGet b "family" = .ok fv)
    (ho : jsGet b "options" = .ok ov)
    (hsel : env.selectChatModels (mkSelector vv fv) = .ok (some (m :: ms)))
    (hdc : env.disconnectAt = some k)
    (hk : k < env.stream.frags.length) :
    (handleRequest env).cancelLog = [false]
      ∧ (handleRequest env).res.trace =
        Ev.head 200 res200Headers ::
          ((env.stream.frags.take k).map Ev.write ++
            endEvents env.stream.cancelFin)
      ∧ (handleRequest env).res.ended = true
      ∧ (handleRequest env).res.endCount = 1
      ∧ (handleRequest env).res.streamError = false := by
  rw [handleRequest_stream env b p vv fv ov m ms hm hu hb hp hpt hv hf ho hsel]
  rw [hdc, streamPhase_disc env.stream k (Nat.le_of_lt hk)]
  exact ⟨rfl, rfl, rfl, rfl, rfl⟩

/-- Claim C3: every request that reaches the streaming phase (a model was
selected) finalizes the response exactly once, on every exit path — normal
completion, mid-stream error, outer processing error after the 200 head,
and disconnect-triggered cancellation — and never performs a write or a
second finalization on an ended response. -/
theorem chat_stream_finalized_exactly_once (env : ReqEnv)
    (b p vv fv : JsVal) (m : Nat) (ms : List Nat)
    (hm : env.method = "POST") (hu : env.url = "/chat")
    (hb : parseJsonBody env = .ok b)
    (hp : jsGet b "prompt" = .ok p) (hpt : truthy p = true)
    (hv : jsGet b "vendor" = .ok vv) (hf : jsGet b "family" = .ok fv)
    (hsel : env.selectChatModels (mkSelector vv fv) = .ok (some (m :: ms))) :
    (handleRequest env).res.ended = true
      ∧ (handleRequest env).res.endCount = 1
      ∧ (handleRequest env).res.streamError = false := by
  have hroute : env.method = "POST" ∧ env.url = "/chat" := ⟨hm, hu⟩
  cases hov : jsGet b "options" with
  | error e =>
    simp only [handleRequest, if_pos hroute, handleChat, hb, hp, hv, hf, hov,
      hsel, hpt]
    simp [modelsEmpty, outerCatch, Res.init, Res.writeHead, Res.finish,
      pureOutcome]
  | ok ov =>
    rw [handleRequest_stream env b p vv fv ov m ms hm hu hb hp hpt hv hf hov
      hsel]
    cases hdc : env.disconnectAt with
    | none => rw [streamPhase_none]; exact ⟨rfl, rfl, rfl⟩
    | some k =>
      rcases le_or_lt k env.stream.frags.length with hle | hgt
      · rw [streamPhase_disc env.stream k hle]; exact ⟨rfl, rfl, rfl⟩
      · rw [streamPhase_late env.stream k hgt]; exact ⟨rfl, rfl, rfl⟩

/-- Claim C1 (amended): for every `POST /chat` request whose parsed body is
not `null`/`undefined` and whose `prompt` field is absent or falsy (missing
key, empty string, `null`, `false`, `0`), the server responds 400 with the
fixed JSON body and performs no model work (no selection, no `sendRequest`).
The source check is JS truthiness (`!userPrompt`), so truthy non-string
prompts are NOT rejected (see the counterexample). -/
theorem missing_prompt_rejected_400 (env : ReqEnv) (b p : JsVal)
    (hm : env.method = "POST") (hu : env.url = "/chat")
    (hb : parseJsonBody env = .ok b)
    (hp : jsGet b "prompt" = .ok p) (hpt : truthy p = false) :
    (handleRequest env).res.trace =
        [Ev.head 400 jsonCT, Ev.write promptRequiredBody, Ev.fin]
      ∧ (handleRequest env).res.statusCode = some 400
      ∧ bodyOf (handleRequest env).res = promptRequiredBody
      ∧ (handleRequest env).selectCalls = 0
      ∧ (handleRequest env).sendCalls = 0 := by
  obtain ⟨vv, hv⟩ := jsGet_ok_of_ok b "prompt" "vendor" p hp
  obtain ⟨fv, hf⟩ := jsGet_ok_of_ok b "prompt" "family" p hp
  have hroute : env.method = "POST" ∧ env.url = "/chat" := ⟨hm, hu⟩
  simp only [handleRequest, if_pos hroute, handleChat, hb, hp, hv, hf, hpt]
  simp [pureOutcome, Res.init, Res.writeHead, Res.finish, bodyOf, evWriteStr,
    join_singleton]

/-- The request used to refute claim C1 as stated: its parsed body carries
the non-string prompt `true`. -/
def envPromptTrue : ReqEnv :=
  { method := "POST"
    url := "/chat"
    bodyChunks := .ok ["\x7b\"prompt\":true\x7d"]
    jsonParse := fun _ => .ok (.obj [("prompt", .bool true)])
    selectChatModels := fun _ => .ok (some [0])
    stream := { frags := ["ok"], fin := .done, cancelFin := .done }
    disconnectAt := none }

/-- Claim C1, counterexample: a request whose `prompt` is the non-string
JSON value `true` is NOT answered with 400 — the handler selects a model
and issues `sendRequest`, streaming a 200 response, because the source only
checks JS truthiness (`!userPrompt`). -/
theorem nonstring_prompt_not_rejected :
    parseJsonBody envPromptTrue = .ok (.obj [("prompt", .bool true)])
      ∧ ¬ (handleRequest envPromptTrue).res.statusCode = some 400
      ∧ (handleRequest envPromptTrue).res.statusCode = some 200
      ∧ (handleRequest envPromptTrue).selectCalls = 1
      ∧ (handleRequest envPromptTrue).sendCalls = 1 := by
  refine ⟨rfl, ?_, rfl, rfl, rfl⟩
  intro h
  exact absurd
    ((show (handleRequest envPromptTrue).res.statusCode = some 200 from
      rfl).symm.trans h) (by decide)

/-- Claim C7: when the selector matches no models (`selectChatModels`
resolves to an empty or absent set), the response is a single 503 JSON body
that interpolates the (defaulted) vendor and — exactly when a truthy family
was supplied — the family; no 200 head is written, no fragment is streamed,
and `sendRequest` is never invoked. -/
theorem no_model_responds_503 (env : ReqEnv) (b p vv fv : JsVal)
    (ms : Option (List Nat))
    (hm : env.method = "POST") (hu : env.url = "/chat")
    (hb : parseJsonBody env = .ok b)
    (hp : jsGet b "prompt" = .ok p) (hpt : truthy p = true)
    (hv : jsGet b "vendor" = .ok vv) (hf : jsGet b "family" = .ok fv)
    (hsel : env.selectChatModels (mkSelector vv fv) = .ok ms)
    (hempty : modelsEmpty ms = true) :
    (handleRequest env).res.trace =
        [Ev.head 503 jsonCT,
         Ev.write (errorBody
           (noModelMsg (mkSelector vv fv).vendor (mkSelector vv fv).family)),
         Ev.fin]
      ∧ (handleRequest env).res.statusCode = some 503
      ∧ (handleRequest env).sendCalls = 0 := by
  have hroute : env.method = "POST" ∧ env.url = "/chat" := ⟨hm, hu⟩
  simp only [handleRequest, if_pos hroute, handleChat, hb, hp, hv, hf, hpt,
    hsel, hempty]
  simp [pureOutcome, Res.init, Res.writeHead, Res.finish]

/-- Claim C8: when the accumulated body (chunks concatenated in arrival
order, parsed only at end-of-stream) is not parseable as JSON, the server
responds 500 with `{ "error": "Failed to process chat request.",
"details": <message> }` where the details carry the parse diagnostic wrapped
as `Invalid JSON body: <diagnostic>`, and no model work is started. -/
theorem malformed_body_responds_500 (env : ReqEnv) (chunks : List String)
    (d : String)
    (hm : env.method = "POST") (hu : env.url = "/chat")
    (hbc : env.bodyChunks = .ok chunks)
    (hje : env.jsonParse (String.join chunks) = .error d) :
    (handleRequest env).res.trace =
        [Ev.head 500 jsonCT,
         Ev.write (failBody ("Invalid JSON body: " ++ d)), Ev.fin]
      ∧ (handleRequest env).res.statusCode = some 500
      ∧ (handleRequest env).selectCalls = 0
      ∧ (handleRequest env).sendCalls = 0 := by
  have hroute : env.method = "POST" ∧ env.url = "/chat" := ⟨hm, hu⟩
  have hb : parseJsonBody env = .error ("Invalid JSON body: " ++ d) := by
    simp [parseJsonBody, hbc, hje]
  simp only [handleRequest, if_pos hroute, handleChat, hb]
  simp [pureOutcome, outerCatch, Res.init, Res.writeHead, Res.finish, jsonCT]

/-- Claim C10: for every error reaching the outer catch after the response
head was already sent, no second status line is written (the trace gains no
`head` event and the committed status code is unchanged), and when the
response is not yet finalized it is ended with the JSON failure payload
appended into the already-committed stream — a post-commit error surfaces as
trailing JSON text, not as a new 500 status. -/
theorem post_commit_error_keeps_status (r : Res) (e : String)
    (hs : r.headersSent = true) :
    (outerCatch e r).statusCode = r.statusCode
      ∧ (outerCatch e r).headersSent = true
      ∧ (outerCatch e r).trace =
        r.trace ++ (if r.ended then [] else [Ev.write (failBody e), Ev.fin])
      ∧ (outerCatch e r).endCount =
        r.endCount + (if r.ended then 0 else 1) := by
  cases he : r.ended with
  | true => simp [outerCatch, hs, he, Res.finish]
  | false => simp [outerCatch, hs, he, Res.finish]

/-!  Lifecycle invariant: every listening instance is the referenced one,
and instance ids are the creation indices (hence distinct). -/

def InvP (s : BridgeState) : Prop :=
  (∀ h ∈ s.servers, h.listening = true → s.current = some h.id)
  ∧ s.servers.map (fun h => h.id) = List.range s.servers.length

theorem inv_init : InvP BridgeState.init := by
  constructor
  · intro h hm; simp [BridgeState.init] at hm
  · simp [BridgeState.init]

theorem no_listener_of_not_current (s : BridgeState) (hinv : InvP s)
    (hncl : s.currentListening = false) :
    ∀ h ∈ s.servers, h.listening = false := by
  intro h hm
  cases hb : h.listening with
  | false => rfl
  | true =>
    exfalso
    have hc := hinv.1 h hm hb
    have hncl' :
        s.servers.any (fun x => x.id == h.id && x.listening) = false := by
      simpa [BridgeState.currentListening, hc] using hncl
    have hany : s.servers.any (fun x => x.id == h.id && x.listening) = true :=
      List.any_eq_true.mpr ⟨h, hm, by simp [hb]⟩
    rw [hany] at hncl'
    exact Bool.noConfusion hncl'

theorem inv_applyOp (o : Op) (s : BridgeState) (hinv : InvP s) :
    InvP (applyOp o s) := by
  cases o with
  | start =>
    show InvP (startServer s)
    unfold startServer
    cases hcl : s.currentListening with
    | true => rw [if_pos rfl]; exact hinv
    | false =>
      rw [if_neg (by simp)]
      have hnl := no_listener_of_not_current s hinv hcl
      constructor
      · intro h hm hl
        rcases List.mem_append.mp hm with hm1 | hm2
        · rw [hnl h hm1] at hl; exact Bool.noConfusion hl
        · simp at hm2; rw [hm2]
      · simp [hinv.2, List.range_succ]
  | dispose =>
    show InvP (disposeServer s)
    unfold disposeServer
    cases hc : s.current with
    | none => exact hinv
    | some i =>
      constructor
      · intro h hm hl
        exfalso
        simp only [closeSrv, List.mem_map] at hm
        obtain ⟨h0, hm0, heq⟩ := hm
        by_cases hid : h0.id = i
        · rw [← heq] at hl; simp [hid] at hl
        · rw [← heq] at hl; simp [hid] at hl
          have := hinv.1 h0 hm0 hl
          rw [hc] at this
          exact hid (Option.some.inj this).symm
      · have hids : ∀ h0 : SrvHandle,
            ((fun h => if h.id = i then { h with listening := false } else h)
              h0).id = h0.id := by
          intro h0; by_cases hid : h0.id = i <;> simp [hid]
        simp only [closeSrv, List.map_map, List.length_map]
        have : ((fun h => h.id) ∘
            fun h => if h.id = i then { h with listening := false } else h) =
            fun h : SrvHandle => h.id := by
          funext h0; exact hids h0
        rw [this, hinv.2]
  | listenerError m =>
    show InvP (serverError m s)
    unfold serverError
    cases hc : s.current with
    | none =>
      constructor
      · intro h hm hl
        exfalso
        have := hinv.1 h hm hl
        rw [hc] at this
        exact Option.noConfusion this
      · exact hinv.2
    | some i =>
      constructor
      · intro h hm hl
        exfalso
        simp only [closeSrv, List.mem_map] at hm
        obtain ⟨h0, hm0, heq⟩ := hm
        by_cases hid : h0.id = i
        · rw [← heq] at hl; simp [hid] at hl
        · rw [← heq] at hl; simp [hid] at hl
          have := hinv.1 h0 hm0 hl
          rw [hc] at this
          exact hid (Option.some.inj this).symm
      · have : ((fun h => h.id) ∘
            fun h => if h.id = i then { h with listening := false } else h) =
            fun h : SrvHandle => h.id := by
          funext h0; by_cases hid : h0.id = i <;> simp [hid]
        simp only [closeSrv, List.map_map, List.length_map]
        rw [this, hinv.2]

theorem inv_runOps (ops : List Op) : InvP (runOps ops) := by
  suffices hgen : ∀ s, InvP s → InvP (ops.foldl (fun s o => applyOp o s) s) by
    exact hgen BridgeState.init inv_init
  induction ops with
  | nil => intro s hs; exact hs
  | cons o rest ih => intro s hs; exact ih (applyOp o s) (inv_applyOp o s hs)

theorem listening_le_one (s : BridgeState) (hinv : InvP s) :
    listeningCount s ≤ 1 := by
  have hnd : (s.servers.map (fun h => h.id)).Nodup := by
    rw [hinv.2]; exact List.nodup_range _
  have hsub : List.Sublist
      ((s.servers.filter (fun h => h.listening)).map (fun h => h.id))
      (s.servers.map (fun h => h.id)) :=
    List.Sublist.map _ (List.filter_sublist _)
  have hnd2 := hnd.sublist hsub
  cases hl : s.servers.filter (fun h => h.listening) with
  | nil => simp [listeningCount, hl]
  | cons a t =>
    have hmema : a ∈ s.servers ∧ a.listening = true := by
      have := List.mem_filter.mp (hl ▸ List.mem_cons_self a t)
      simpa using this
    have hca : s.current = some a.id := hinv.1 a hmema.1 hmema.2
    have hall : ∀ x ∈ s.servers.filter (fun h => h.listening), x.id = a.id := by
      intro x hx
      have hx' := List.mem_filter.mp hx
      have hcx := hinv.1 x hx'.1 (by simpa using hx'.2)
      rw [hca] at hcx
      exact (Option.some.inj hcx).symm
    cases t with
    | nil => simp [listeningCount, hl]
    | cons b t2 =>
      exfalso
      have hb : b ∈ s.servers.filter (fun h => h.listening) := by
        rw [hl]; exact List.mem_cons_of_mem _ (List.mem_cons_self b t2)
      have hba : b.id = a.id := hall b hb
      rw [hl] at hnd2
      simp [List.nodup_cons, hba] at hnd2

theorem all_closed_of_current_none (s : BridgeState) (hinv : InvP s)
    (hc : s.current = none) : ∀ h ∈ s.servers, h.listening = false := by
  intro h hm
  cases hb : h.listening with
  | false => rfl
  | true =>
    exfalso
    have := hinv.1 h hm hb
    rw [hc] at this
    exact Option.noConfusion this

/-- Claim C6: in every state reachable by any sequence of start / dispose /
listener-error events, at most one server instance is listening; calling
`start` while the current server is listening changes neither the instance
list nor the reference nor the subscriptions — it only reports the
"already running" notice; and running the deactivation disposable when no
server reference exists is a complete no-op. -/
theorem bridge_singleton_lifecycle (ops : List Op) :
    listeningCount (runOps ops) ≤ 1
      ∧ ((runOps ops).currentListening = true →
          (startServer (runOps ops)).servers = (runOps ops).servers
            ∧ (startServer (runOps ops)).current = (runOps ops).current
            ∧ (startServer (runOps ops)).subs = (runOps ops).subs
            ∧ (startServer (runOps ops)).notices =
              (runOps ops).notices ++ [alreadyRunningMsg])
      ∧ ((runOps ops).current = none →
          disposeServer (runOps ops) = runOps ops) := by
  refine ⟨listening_le_one _ (inv_runOps ops), ?_, ?_⟩
  · intro hcl
    unfold startServer
    rw [if_pos hcl]
    exact ⟨rfl, rfl, rfl, rfl⟩
  · intro hc
    simp [disposeServer, hc]

/-- Witness for the lifecycle claim at concrete event sequences. -/
theorem bridge_singleton_lifecycle_witness :
    listeningCount (runOps [Op.start]) ≤ 1
      ∧ (startServer (runOps [Op.start])).servers = (runOps [Op.start]).servers
      ∧ disposeServer (runOps [Op.dispose]) = runOps [Op.dispose] := by
  refine ⟨(bridge_singleton_lifecycle [Op.start]).1, ?_, ?_⟩
  · exact ((bridge_singleton_lifecycle [Op.start]).2.1 (by decide)).1
  · exact (bridge_singleton_lifecycle [Op.dispose]).2.2 (by decide)

/-- Claim C9: a listener-level failure in any reachable state is reported
via `showErrorMessage`, closes the listener (afterwards no instance is
listening), clears the singleton reference (`Stopped`), creates no new
instance (no automatic retry — the instance count is unchanged), and a
subsequent explicit `start` creates exactly one fresh listening instance.
The handler itself is a total function of the state: the failure never
escapes (never crashes the owning process). -/
theorem listener_error_resets_to_stopped (ops : List Op) (msg : String) :
    (serverError msg (runOps ops)).errorsReported =
        (runOps ops).errorsReported ++ ["LLM Bridge server error: " ++ msg]
      ∧ (serverError msg (runOps ops)).current = none
      ∧ ((serverError msg (runOps ops)).servers.all
          fun h => !h.listening) = true
      ∧ (serverError msg (runOps ops)).servers.length =
        (runOps ops).servers.length
      ∧ (startServer (serverError msg (runOps ops))).servers.length =
        (runOps ops).servers.length + 1
      ∧ (startServer (serverError msg (runOps ops))).currentListening
        = true := by
  have hinv' : InvP (serverError msg (runOps ops)) :=
    inv_applyOp (Op.listenerError msg) (runOps ops) (inv_runOps ops)
  have hcn : (serverError msg (runOps ops)).current = none := rfl
  have hlen : (serverError msg (runOps ops)).servers.length =
      (runOps ops).servers.length := by
    unfold serverError
    cases (runOps ops).current <;> simp [closeSrv]
  have hcl : (serverError msg (runOps ops)).currentListening = false := by
    simp [BridgeState.currentListening, hcn]
  refine ⟨rfl, hcn, ?_, hlen, ?_, ?_⟩
  · exact List.all_eq_true.mpr (fun h hm => by
      simp [all_closed_of_current_none _ hinv' hcn h hm])
  · unfold startServer
    rw [if_neg (by simp [hcl])]
    simp [hlen]
  · unfold startServer
    rw [if_neg (by simp [hcl])]
    simp [BridgeState.currentListening, List.any_append]

/-!  Concrete request environments used by the witnesses. -/

def haikuBody : JsVal := .obj [("prompt", .str "Write a haiku about coding.")]

def envSuccess : ReqEnv :=
  { method := "POST"
    url := "/chat"
    bodyChunks := .ok ["\x7b\"prompt\":\"Write a haiku about coding.\"\x7d"]
    jsonParse := fun _ => .ok haikuBody
    selectChatModels := fun _ => .ok (some [0])
    stream :=
      { frags := ["Code", " flows", " like rivers"]
        fin := .done
        cancelFin := .done }
    disconnectAt := none }

def envMidErr : ReqEnv :=
  { envSuccess with
    stream :=
      { frags := ["partial"], fin := .err "LLM exploded", cancelFin := .done } }

def envDisc : ReqEnv :=
  { envSuccess with
    stream :=
      { frags := ["a", "b", "c"], fin := .done, cancelFin := .err "Canceled" }
    disconnectAt := some 1 }

def envNoPrompt : ReqEnv :=
  { envSuccess with
    bodyChunks := .ok ["\x7b\x7d"]
    jsonParse := fun _ => .ok (.obj []) }

def envNoModel : ReqEnv :=
  { envSuccess with
    jsonParse := fun _ => .ok (.obj
      [("prompt", .str "hi"), ("vendor", .str "copilot"),
       ("family", .str "gpt-4o")])
    selectChatModels := fun _ => .ok (some []) }

def envBadJson : ReqEnv :=
  { envSuccess with
    bodyChunks := .ok ["not json"]
    jsonParse := fun _ => .error "Unexpected token o in JSON at position 1" }

/-- Witness for the success-streaming claim at a concrete request. -/
theorem chat_success_witness :
    (handleRequest envSuccess).res.trace =
        Ev.head 200 res200Headers ::
          (envSuccess.stream.frags.map Ev.write ++ [Ev.fin])
      ∧ bodyOf (handleRequest envSuccess).res =
        String.join envSuccess.stream.frags
      ∧ (handleRequest envSuccess).res.statusCode = some 200
      ∧ (handleRequest envSuccess).res.ended = true
      ∧ (handleRequest envSuccess).res.endCount = 1
      ∧ (handleRequest envSuccess).res.streamError = false :=
  chat_success_streams_fragments_in_order envSuccess haikuBody
    (.str "Write a haiku about coding.") .undefined .undefined .undefined 0 []
    rfl rfl rfl rfl rfl rfl rfl rfl rfl rfl rfl

/-- Witness for the mid-stream-error claim at a concrete request. -/
theorem chat_midstream_error_witness :
    bodyOf (handleRequest envMidErr).res =
        String.join (envMidErr.stream.frags ++ [llmErrorMarker "LLM exploded"])
      ∧ (handleRequest envMidErr).res.trace =
        Ev.head 200 res200Headers ::
          (envMidErr.stream.frags.map Ev.write ++
            [Ev.write (llmErrorMarker "LLM exploded"), Ev.fin])
      ∧ (handleRequest envMidErr).res.statusCode = some 200
      ∧ (handleRequest envMidErr).res.ended = true
      ∧ (handleRequest envMidErr).res.endCount = 1
      ∧ (handleRequest envMidErr).res.streamError = false :=
  chat_midstream_error_inline_marker envMidErr haikuBody
    (.str "Write a haiku about coding.") .undefined .undefined .undefined 0 []
    "LLM exploded" rfl rfl rfl rfl rfl rfl rfl rfl rfl rfl rfl

/-- Witness for the disconnect-cancellation claim at a concrete request. -/
theorem chat_disconnect_witness :
    (handleRequest envDisc).cancelLog = [false]
      ∧ (handleRequest envDisc).res.trace =
        Ev.head 200 res200Headers ::
          ((envDisc.stream.frags.take 1).map Ev.write ++
            endEvents envDisc.stream.cancelFin)
      ∧ (handleRequest envDisc).res.ended = true
      ∧ (handleRequest envDisc).res.endCount = 1
      ∧ (handleRequest envDisc).res.streamError = false :=
  chat_disconnect_cancels_once envDisc haikuBody
    (.str "Write a haiku about coding.") .undefined .undefined .undefined 0 [] 1
    rfl rfl rfl rfl rfl rfl rfl rfl rfl rfl (by decide)

/-- Witness for the finalize-exactly-once claim at a concrete request. -/
theorem chat_finalize_once_witness :
    (handleRequest envSuccess).res.ended = true
      ∧ (handleRequest envSuccess).res.endCount = 1
      ∧ (handleRequest envSuccess).res.streamError = false :=
  chat_stream_finalized_exactly_once envSuccess haikuBody
    (.str "Write a haiku about coding.") .undefined .undefined 0 []
    rfl rfl rfl rfl rfl rfl rfl rfl

/-- Witness for the missing-prompt claim at a concrete request with no
prompt key in its body. -/
theorem missing_prompt_witness :
    (handleRequest envNoPrompt).res.trace =
        [Ev.head 400 jsonCT, Ev.write promptRequiredBody, Ev.fin]
      ∧ (handleRequest envNoPrompt).res.statusCode = some 400
      ∧ bodyOf (handleRequest envNoPrompt).res = promptRequiredBody
      ∧ (handleRequest envNoPrompt).selectCalls = 0
      ∧ (handleRequest envNoPrompt).sendCalls = 0 :=
  missing_prompt_rejected_400 envNoPrompt (.obj []) .undefined
    rfl rfl rfl rfl rfl

/-- Witness for the no-model-503 claim at a concrete request with vendor
"copilot" and family "gpt-4o". -/
theorem no_model_witness :
    (handleRequest envNoModel).res.trace =
        [Ev.head 503 jsonCT,
         Ev.write (errorBody
           (noModelMsg (mkSelector (.str "copilot") (.str "gpt-4o")).vendor
             (mkSelector (.str "copilot") (.str "gpt-4o")).family)),
         Ev.fin]
      ∧ (handleRequest envNoModel).res.statusCode = some 503
      ∧ (handleRequest envNoModel).sendCalls = 0 :=
  no_model_responds_503 envNoModel
    (.obj [("prompt", .str "hi"), ("vendor", .str "copilot"),
      ("family", .str "gpt-4o")])
    (.str "hi") (.str "copilot") (.str "gpt-4o") (some [])
    rfl rfl rfl rfl rfl rfl rfl rfl rfl

/-- Witness for the malformed-body-500 claim at a concrete request. -/
theorem malformed_body_witness :
    (handleRequest envBadJson).res.trace =
        [Ev.head 500 jsonCT,
         Ev.write (failBody
           ("Invalid JSON body: " ++
             "Unexpected token o in JSON at position 1")), Ev.fin]
      ∧ (handleRequest envBadJson).res.statusCode = some 500
      ∧ (handleRequest envBadJson).selectCalls = 0
      ∧ (handleRequest envBadJson).sendCalls = 0 :=
  malformed_body_responds_500 envBadJson ["not json"]
    "Unexpected token o in JSON at position 1" rfl rfl rfl rfl

/-- Witness for the post-commit-error claim at a concrete committed
response. -/
theorem post_commit_error_witness :
    (outerCatch "boom" (Res.init.writeHead 200 res200Headers)).statusCode =
        (Res.init.writeHead 200 res200Headers).statusCode
      ∧ (outerCatch "boom"
          (Res.init.writeHead 200 res200Headers)).headersSent = true
      ∧ (outerCatch "boom" (Res.init.writeHead 200 res200Headers)).trace =
        (Res.init.writeHead 200 res200Headers).trace ++
          (if (Res.init.writeHead 200 res200Headers).ended then []
           else [Ev.write (failBody "boom"), Ev.fin])
      ∧ (outerCatch "boom" (Res.init.writeHead 200 res200Headers)).endCount =
        (Res.init.writeHead 200 res200Headers).endCount +
          (if (Res.init.writeHead 200 res200Headers).ended then 0 else 1) :=
  post_commit_error_keeps_status (Res.init.writeHead 200 res200Headers)
    "boom" rfl
